import Mathlib

/-!
Shallow embedding of pkg/executor/mpperr/mpp_err_recovery.go (package mpperr).

The repository code owns the recovery orchestrator (RecoveryHandler), the
handler chain (handlerImpl, memLimitHandlerImpl) and the result holder
(mppResultHolder).  External collaborators are modelled abstractly:

* chunk.Chunk is opaque to this package; only NumRows and MemoryUsage are read,
  so a chunk is a record of those two observations.
* memory.Tracker is used through Consume and Detach only; it is modelled as the
  running signed sum of consumed bytes plus a detached flag.
* tiflashcompute.GetGlobalTopoFetcher().RecoveryAndGetTopo is a process-wide
  service; the package only consumes its error result, so the service is a
  function parameter fetch : Int -> Option String giving the error (none on
  success) for a node count.

Go integers: curRows and capacity are uint64, curRecoveryCnt and maxRecoveryCnt
are uint32.  Row counts come from actual in-memory chunks and the recovery
counter only increments while strictly below maxRecoveryCnt (3 from the
constructor), so neither counter can reach its wrap-around bound; they are
modelled as Nat.
-/

namespace MppErr

/-- Observable part of chunk.Chunk: NumRows and MemoryUsage. -/
structure Chunk where
  numRows : Nat
  memoryUsage : Int
  deriving Repr, DecidableEq

/-- memory.Tracker as used here: Consume accumulates a signed byte delta,
Detach marks the tracker as unlinked from its parent. -/
structure Tracker where
  consumed : Int
  detached : Bool
  deriving Repr, DecidableEq

def Tracker.consume (t : Tracker) (d : Int) : Tracker :=
  { t with consumed := t.consumed + d }

def Tracker.detach (t : Tracker) : Tracker :=
  { t with detached := true }

/-- Fresh tracker, as built by memory.NewTracker(parent.Label(), 0). -/
def Tracker.new : Tracker :=
  { consumed := 0, detached := false }

/-- Go error values reach this package only through their Error() text, so an
error is its textual description. -/
abbrev GoErr := String

/-- RecoveryInfo: MPPErr is a nil-able error, NodeCnt an int. -/
structure RecoveryInfo where
  mppErr : Option GoErr
  nodeCnt : Int

/-- Errors produced or propagated by RecoveryHandler.Recovery. -/
inductive Err where
  /-- errors.New("mpp err recovery is not enabled") -/
  | notEnabled
  /-- errors.New("RecoveryInfo is nil or mppErr is nil") -/
  | invalidInfo
  /-- errors.Errorf("exceeds max recovery cnt: cur: %v, max: %v", cur, max) -/
  | exceedsMax (cur max : Nat)
  /-- errors.New("no handler to recovery this type of mpp err") -/
  | noHandler
  /-- error propagated verbatim from a handler (here: the topology fetcher) -/
  | topoErr (e : GoErr)
  deriving Repr, DecidableEq

/-- The handlerImpl interface: chooseHandlerImpl and doRecovery.  A returned
none means the Go nil error (success). -/
structure HandlerImpl where
  chooseHandlerImpl : GoErr → Bool
  doRecovery : RecoveryInfo → Option Err

/-- const memLimitErrPattern = "Memory limit" -/
def memLimitErrPattern : String := "Memory limit"

/-- strings.Contains on char lists: true iff pat occurs contiguously in s
(the empty pattern always matches). -/
def listContainsSub (pat : List Char) : List Char → Bool
  | [] => pat.isEmpty
  | a :: rest => pat.isPrefixOf (a :: rest) || listContainsSub pat rest

/-- strings.Contains(s, pat). -/
def strContains (s pat : String) : Bool :=
  listContainsSub pat.toList s.toList

/-- memLimitHandlerImpl.chooseHandlerImpl: true iff the error text contains
"Memory limit" and useAutoScaler is set. -/
def memLimitChoose (useAutoScaler : Bool) (mppErr : GoErr) : Bool :=
  if strContains mppErr memLimitErrPattern && useAutoScaler then true else false

/-- newMemLimitHandlerImpl.  doRecovery calls the global topology fetcher
(modelled by fetch) with RecoveryTypeMemLimit and info.NodeCnt, discards the
topology and propagates the error, if any. -/
def newMemLimitHandlerImpl (useAutoScaler : Bool) (fetch : Int → Option GoErr) :
    HandlerImpl where
  chooseHandlerImpl := memLimitChoose useAutoScaler
  doRecovery := fun info => (fetch info.nodeCnt).map Err.topoErr

/-- mppResultHolder. -/
structure MppResultHolder where
  capacity : Nat
  cannotHold : Bool
  curRows : Nat
  chks : List Chunk
  memTracker : Tracker

/-- newMPPResultHolder. -/
def newMPPResultHolder (holderCap : Nat) : MppResultHolder :=
  { capacity := holderCap
    cannotHold := false
    curRows := 0
    chks := []
    memTracker := Tracker.new }

/-- mppResultHolder.insert. -/
def MppResultHolder.insert (h : MppResultHolder) (chk : Chunk) : MppResultHolder :=
  let chks := h.chks ++ [chk]
  let curRows := h.curRows + chk.numRows
  { h with
    chks := chks
    curRows := curRows
    cannotHold := if curRows ≥ h.capacity then true else h.cannotHold
    memTracker := h.memTracker.consume chk.memoryUsage }

/-- mppResultHolder.reset. -/
def MppResultHolder.reset (h : MppResultHolder) : MppResultHolder :=
  { h with
    cannotHold := false
    curRows := 0
    chks := []
    memTracker := h.memTracker.detach }

/-- RecoveryHandler. -/
structure RecoveryHandler where
  enable : Bool
  handlers : List HandlerImpl
  holder : MppResultHolder
  curRecoveryCnt : Nat
  maxRecoveryCnt : Nat

/-- NewRecoveryHandler.  The parent tracker argument only supplies the label of
the fresh tracker and is omitted. -/
def NewRecoveryHandler (useAutoScaler : Bool) (holderCap : Nat) (enable : Bool)
    (fetch : Int → Option GoErr) : RecoveryHandler :=
  { enable := enable
    handlers := [newMemLimitHandlerImpl useAutoScaler fetch]
    holder := newMPPResultHolder holderCap
    curRecoveryCnt := 0
    maxRecoveryCnt := 3 }

/-- RecoveryHandler.Enabled. -/
def RecoveryHandler.Enabled (m : RecoveryHandler) : Bool :=
  m.enable

/-- RecoveryHandler.CanHoldResult. -/
def RecoveryHandler.CanHoldResult (m : RecoveryHandler) : Bool :=
  decide (m.holder.capacity > 0) && !m.holder.cannotHold

/-- RecoveryHandler.HoldResult. -/
def RecoveryHandler.HoldResult (m : RecoveryHandler) (chk : Chunk) : RecoveryHandler :=
  { m with holder := m.holder.insert chk }

/-- RecoveryHandler.NumHoldChk. -/
def RecoveryHandler.NumHoldChk (m : RecoveryHandler) : Nat :=
  m.holder.chks.length

/-- RecoveryHandler.NumHoldRows. -/
def RecoveryHandler.NumHoldRows (m : RecoveryHandler) : Nat :=
  m.holder.curRows

/-- RecoveryHandler.PopFrontChk: returns the popped chunk (nil when disabled or
empty) and the successor state. -/
def RecoveryHandler.PopFrontChk (m : RecoveryHandler) : Option Chunk × RecoveryHandler :=
  if !m.enable || m.holder.chks.isEmpty then (none, m)
  else
    match m.holder.chks with
    | [] => (none, m)
    | chk :: rest =>
      (some chk,
       { m with holder :=
         { m.holder with
           chks := rest
           memTracker := m.holder.memTracker.consume (-chk.memoryUsage)
           cannotHold := true } })

/-- RecoveryHandler.ResetHolder. -/
def RecoveryHandler.ResetHolder (m : RecoveryHandler) : RecoveryHandler :=
  { m with holder := m.holder.reset }

/-- RecoveryHandler.RecoveryCnt. -/
def RecoveryHandler.RecoveryCnt (m : RecoveryHandler) : Nat :=
  m.curRecoveryCnt

/-- RecoveryHandler.Recovery: returns the Go error (none = success) and the
successor state. -/
def RecoveryHandler.Recovery (m : RecoveryHandler) (info : Option RecoveryInfo) :
    Option Err × RecoveryHandler :=
  if !m.enable then (some Err.notEnabled, m)
  else
    match info with
    | none => (some Err.invalidInfo, m)
    | some i =>
      match i.mppErr with
      | none => (some Err.invalidInfo, m)
      | some e =>
        if m.curRecoveryCnt ≥ m.maxRecoveryCnt then
          (some (Err.exceedsMax m.curRecoveryCnt m.maxRecoveryCnt), m)
        else
          let m2 := { m with curRecoveryCnt := m.curRecoveryCnt + 1 }
          match m.handlers.find? (fun h => h.chooseHandlerImpl e) with
          | some h => (h.doRecovery i, m2)
          | none => (some Err.noHandler, m2)

/-- A sequence of HoldResult calls, folded left over the inserted chunks. -/
def RecoveryHandler.holdAll (m : RecoveryHandler) (cs : List Chunk) : RecoveryHandler :=
  cs.foldl RecoveryHandler.HoldResult m

/-- States reachable from a constructed orchestrator through the public
mutating operations. -/
inductive Reachable : RecoveryHandler → Prop where
  | init (ua : Bool) (cap : Nat) (en : Bool) (fetch : Int → Option GoErr) :
      Reachable (NewRecoveryHandler ua cap en fetch)
  | hold {m : RecoveryHandler} (chk : Chunk) :
      Reachable m → Reachable (m.HoldResult chk)
  | pop {m : RecoveryHandler} :
      Reachable m → Reachable (m.PopFrontChk).2
  | reset {m : RecoveryHandler} :
      Reachable m → Reachable m.ResetHolder
  | recover {m : RecoveryHandler} (info : Option RecoveryInfo) :
      Reachable m → Reachable (m.Recovery info).2

/-- Topology fetcher that always succeeds (used in concrete runs). -/
def scenBfetch : Int → Option GoErr := fun _ => none

/-- Scenario B start: enabled orchestrator, useAutoScaler off, capacity 100. -/
def scenB0 : RecoveryHandler := NewRecoveryHandler false 100 true scenBfetch

/-- Scenario B input: a non-nil, unclassifiable failure. -/
def scenBinfo : Option RecoveryInfo := some { mppErr := some "boom", nodeCnt := 1 }

def scenB1 : RecoveryHandler := (scenB0.Recovery scenBinfo).2

def scenB2 : RecoveryHandler := (scenB1.Recovery scenBinfo).2

def scenB3 : RecoveryHandler := (scenB2.Recovery scenBinfo).2

def scenB4 : RecoveryHandler := (scenB3.Recovery scenBinfo).2

/-- A disabled orchestrator (enable = false at construction). -/
def demoDisabled : RecoveryHandler := NewRecoveryHandler true 4 false scenBfetch

/-- An enabled state holding one 2-row chunk of 8 bytes, with no handlers. -/
def demoE : RecoveryHandler :=
  { enable := true
    handlers := []
    holder :=
      { capacity := 5
        cannotHold := false
        curRows := 2
        chks := [{ numRows := 2, memoryUsage := 8 }]
        memTracker := Tracker.new }
    curRecoveryCnt := 0
    maxRecoveryCnt := 3 }

/-- The state of demoE after popping its single chunk. -/
def demoE2 : RecoveryHandler :=
  { enable := true
    handlers := []
    holder :=
      { capacity := 5
        cannotHold := true
        curRows := 2
        chks := []
        memTracker := { consumed := -8, detached := false } }
    curRecoveryCnt := 0
    maxRecoveryCnt := 3 }

/-- Enabled orchestrator with the auto-scaler on. -/
def demoM : RecoveryHandler := NewRecoveryHandler true 4 true scenBfetch

/-- Fresh enabled orchestrator with capacity 10. -/
def demoFresh : RecoveryHandler := NewRecoveryHandler false 10 true scenBfetch

/-- An enabled state whose recovery budget is already exhausted (3 of 3). -/
def demoX : RecoveryHandler :=
  { enable := true
    handlers := []
    holder := newMPPResultHolder 5
    curRecoveryCnt := 3
    maxRecoveryCnt := 3 }

/-! ### Helper lemmas -/

theorem isPrefixOf_iff_exists (p : List Char) :
    ∀ s : List Char, p.isPrefixOf s = true ↔ ∃ t, s = p ++ t := by
  induction p with
  | nil => intro s; simp [List.isPrefixOf]
  | cons a p ih =>
    intro s
    cases s with
    | nil => simp [List.isPrefixOf]
    | cons b s =>
      simp only [List.isPrefixOf, Bool.and_eq_true, beq_iff_eq, ih, List.cons_append,
        List.cons.injEq]
      constructor
      · rintro ⟨rfl, t, rfl⟩; exact ⟨t, rfl, rfl⟩
      · rintro ⟨t, rfl, rfl⟩; exact ⟨rfl, t, rfl⟩

theorem listContainsSub_iff (pat : List Char) :
    ∀ s : List Char, listContainsSub pat s = true ↔ ∃ l r, s = l ++ pat ++ r := by
  intro s
  induction s with
  | nil =>
    simp only [listContainsSub, List.isEmpty_iff]
    constructor
    · rintro rfl; exact ⟨[], [], rfl⟩
    · rintro ⟨l, r, h⟩
      rcases List.append_eq_nil.mp (List.append_eq_nil.mp h.symm).1 with ⟨-, h2⟩
      exact h2
  | cons a s ih =>
    simp only [listContainsSub, Bool.or_eq_true, isPrefixOf_iff_exists, ih]
    constructor
    · rintro (⟨t, ht⟩ | ⟨l, r, rfl⟩)
      · exact ⟨[], t, by simpa using ht⟩
      · exact ⟨a :: l, r, rfl⟩
    · rintro ⟨l, r, h⟩
      cases l with
      | nil => exact Or.inl ⟨r, by simpa using h⟩
      | cons x l =>
        simp only [List.cons_append, List.cons.injEq] at h
        exact Or.inr ⟨l, r, h.2⟩

theorem strContains_iff (s pat : String) :
    strContains s pat = true ↔ ∃ l r, s.toList = l ++ pat.toList ++ r :=
  listContainsSub_iff pat.toList s.toList

theorem find?_first {α : Type} (p : α → Bool) (pre : List α) (h : α) (post : List α)
    (hpre : ∀ x ∈ pre, p x = false) (hh : p h = true) :
    (pre ++ h :: post).find? p = some h := by
  induction pre with
  | nil => simpa [List.find?_cons_of_pos] using List.find?_cons_of_pos post hh
  | cons a l ih =>
    have ha : p a = false := hpre a (by simp)
    simpa [List.find?_cons_of_neg, ha] using
      ih (fun x hx => hpre x (by simp [hx]))

theorem Recovery_not_enabled (m : RecoveryHandler) (info : Option RecoveryInfo)
    (he : m.enable = false) : m.Recovery info = (some Err.notEnabled, m) := by
  unfold RecoveryHandler.Recovery
  simp [he]

theorem Recovery_nil_info (m : RecoveryHandler) (he : m.enable = true) :
    m.Recovery none = (some Err.invalidInfo, m) := by
  unfold RecoveryHandler.Recovery
  simp [he]

theorem Recovery_nil_err (m : RecoveryHandler) (i : RecoveryInfo)
    (he : m.enable = true) (hme : i.mppErr = none) :
    m.Recovery (some i) = (some Err.invalidInfo, m) := by
  unfold RecoveryHandler.Recovery
  simp [he, hme]

theorem Recovery_budget (m : RecoveryHandler) (i : RecoveryInfo) (e : GoErr)
    (he : m.enable = true) (hme : i.mppErr = some e)
    (hcur : m.curRecoveryCnt ≥ m.maxRecoveryCnt) :
    m.Recovery (some i) =
      (some (Err.exceedsMax m.curRecoveryCnt m.maxRecoveryCnt), m) := by
  unfold RecoveryHandler.Recovery
  simp [he, hme, hcur]

theorem Recovery_step (m : RecoveryHandler) (i : RecoveryInfo) (e : GoErr)
    (he : m.enable = true) (hme : i.mppErr = some e)
    (hcur : m.curRecoveryCnt < m.maxRecoveryCnt) :
    m.Recovery (some i) =
      ((match m.handlers.find? (fun h => h.chooseHandlerImpl e) with
        | some h => h.doRecovery i
        | none => some Err.noHandler),
       { m with curRecoveryCnt := m.curRecoveryCnt + 1 }) := by
  unfold RecoveryHandler.Recovery
  have hn : ¬ m.curRecoveryCnt ≥ m.maxRecoveryCnt := by omega
  simp only [he, hme, hn, Bool.not_true, Bool.false_eq_true, if_false, ite_false,
    ge_iff_le, decide_eq_true_eq]
  cases hf : m.handlers.find? (fun h => h.chooseHandlerImpl e) <;> rfl

theorem Recovery_state (m : RecoveryHandler) (info : Option RecoveryInfo) :
    (m.Recovery info).2 = m ∨
      (m.curRecoveryCnt < m.maxRecoveryCnt ∧
        (m.Recovery info).2 = { m with curRecoveryCnt := m.curRecoveryCnt + 1 }) := by
  by_cases he : m.enable = true
  · cases info with
    | none => rw [Recovery_nil_info m he]; exact Or.inl rfl
    | some i =>
      cases hme : i.mppErr with
      | none => rw [Recovery_nil_err m i he hme]; exact Or.inl rfl
      | some e =>
        by_cases hcur : m.curRecoveryCnt < m.maxRecoveryCnt
        · rw [Recovery_step m i e he hme hcur]
          exact Or.inr ⟨hcur, rfl⟩
        · rw [Recovery_budget m i e he hme (by omega)]
          exact Or.inl rfl
  · rw [Recovery_not_enabled m info (by simpa using he)]
    exact Or.inl rfl

theorem PopFrontChk_disabled_or_empty (m : RecoveryHandler)
    (h : m.enable = false ∨ m.holder.chks = []) : m.PopFrontChk = (none, m) := by
  unfold RecoveryHandler.PopFrontChk
  rcases h with h | h <;> simp [h]

theorem PopFrontChk_cons (m : RecoveryHandler) (chk : Chunk) (rest : List Chunk)
    (he : m.enable = true) (hc : m.holder.chks = chk :: rest) :
    m.PopFrontChk = (some chk,
      { m with holder :=
        { m.holder with
          chks := rest
          memTracker := m.holder.memTracker.consume (-chk.memoryUsage)
          cannotHold := true } }) := by
  unfold RecoveryHandler.PopFrontChk
  simp [he, hc]

theorem PopFrontChk_some {m m2 : RecoveryHandler} {c : Chunk}
    (h : m.PopFrontChk = (some c, m2)) :
    m.enable = true ∧ ∃ rest, m.holder.chks = c :: rest ∧
      m2 = { m with holder :=
        { m.holder with
          chks := rest
          memTracker := m.holder.memTracker.consume (-c.memoryUsage)
          cannotHold := true } } := by
  by_cases he : m.enable = true
  · cases hc : m.holder.chks with
    | nil =>
      rw [PopFrontChk_disabled_or_empty m (Or.inr hc)] at h
      simp at h
    | cons a rest =>
      rw [PopFrontChk_cons m a rest he hc] at h
      obtain ⟨h1, h2⟩ := Prod.mk.injEq .. ▸ h
      obtain rfl : a = c := by simpa using h1
      exact ⟨he, rest, rfl, h2.symm⟩
  · rw [PopFrontChk_disabled_or_empty m (Or.inl (by simpa using he))] at h
    simp at h

theorem PopFrontChk_state (m : RecoveryHandler) :
    (m.PopFrontChk).2 = m ∨
      ∃ c rest, m.enable = true ∧ m.holder.chks = c :: rest ∧
        (m.PopFrontChk).2 = { m with holder :=
          { m.holder with
            chks := rest
            memTracker := m.holder.memTracker.consume (-c.memoryUsage)
            cannotHold := true } } := by
  by_cases he : m.enable = true
  · cases hc : m.holder.chks with
    | nil => rw [PopFrontChk_disabled_or_empty m (Or.inr hc)]; exact Or.inl rfl
    | cons a rest =>
      rw [PopFrontChk_cons m a rest he hc]
      exact Or.inr ⟨a, rest, he, rfl, rfl⟩
  · rw [PopFrontChk_disabled_or_empty m (Or.inl (by simpa using he))]
    exact Or.inl rfl

theorem PopFrontChk_curRows (m : RecoveryHandler) :
    (m.PopFrontChk).2.holder.curRows = m.holder.curRows := by
  rcases PopFrontChk_state m with h | ⟨c, rest, -, -, h⟩ <;> rw [h]

theorem PopFrontChk_capacity (m : RecoveryHandler) :
    (m.PopFrontChk).2.holder.capacity = m.holder.capacity := by
  rcases PopFrontChk_state m with h | ⟨c, rest, -, -, h⟩ <;> rw [h]

theorem PopFrontChk_enable (m : RecoveryHandler) :
    (m.PopFrontChk).2.enable = m.enable := by
  rcases PopFrontChk_state m with h | ⟨c, rest, -, -, h⟩ <;> rw [h]

theorem PopFrontChk_cnt (m : RecoveryHandler) :
    (m.PopFrontChk).2.curRecoveryCnt = m.curRecoveryCnt := by
  rcases PopFrontChk_state m with h | ⟨c, rest, -, -, h⟩ <;> rw [h]

theorem PopFrontChk_max (m : RecoveryHandler) :
    (m.PopFrontChk).2.maxRecoveryCnt = m.maxRecoveryCnt := by
  rcases PopFrontChk_state m with h | ⟨c, rest, -, -, h⟩ <;> rw [h]

theorem iterate_reset_cnt (m : RecoveryHandler) (k : Nat) :
    ((RecoveryHandler.ResetHolder)^[k] m).curRecoveryCnt = m.curRecoveryCnt := by
  induction k generalizing m with
  | zero => rfl
  | succ k ih => rw [Function.iterate_succ_apply]; exact ih m.ResetHolder

theorem iterate_reset_max (m : RecoveryHandler) (k : Nat) :
    ((RecoveryHandler.ResetHolder)^[k] m).maxRecoveryCnt = m.maxRecoveryCnt := by
  induction k generalizing m with
  | zero => rfl
  | succ k ih => rw [Function.iterate_succ_apply]; exact ih m.ResetHolder

theorem iterate_reset_enable (m : RecoveryHandler) (k : Nat) :
    ((RecoveryHandler.ResetHolder)^[k] m).enable = m.enable := by
  induction k generalizing m with
  | zero => rfl
  | succ k ih => rw [Function.iterate_succ_apply]; exact ih m.ResetHolder

theorem holdAll_curRows (cs : List Chunk) :
    ∀ m : RecoveryHandler,
      (m.holdAll cs).holder.curRows =
        m.holder.curRows + (cs.map Chunk.numRows).sum := by
  induction cs with
  | nil => intro m; simp [RecoveryHandler.holdAll]
  | cons c cs ih =>
    intro m
    have := ih (m.HoldResult c)
    simp only [RecoveryHandler.holdAll, List.foldl_cons] at this ⊢
    rw [this]
    simp [RecoveryHandler.HoldResult, MppResultHolder.insert]
    omega

theorem holdAll_chks (cs : List Chunk) :
    ∀ m : RecoveryHandler,
      (m.holdAll cs).holder.chks = m.holder.chks ++ cs := by
  induction cs with
  | nil => intro m; simp [RecoveryHandler.holdAll]
  | cons c cs ih =>
    intro m
    have := ih (m.HoldResult c)
    simp only [RecoveryHandler.holdAll, List.foldl_cons] at this ⊢
    rw [this]
    simp [RecoveryHandler.HoldResult, MppResultHolder.insert]

theorem Recovery_holder (m : RecoveryHandler) (info : Option RecoveryInfo) :
    ((m.Recovery info).2).holder = m.holder := by
  rcases Recovery_state m info with h | ⟨-, h⟩ <;> rw [h]

theorem Recovery_enable (m : RecoveryHandler) (info : Option RecoveryInfo) :
    ((m.Recovery info).2).enable = m.enable := by
  rcases Recovery_state m info with h | ⟨-, h⟩ <;> rw [h]

theorem Recovery_max (m : RecoveryHandler) (info : Option RecoveryInfo) :
    ((m.Recovery info).2).maxRecoveryCnt = m.maxRecoveryCnt := by
  rcases Recovery_state m info with h | ⟨-, h⟩ <;> rw [h]

/-! ### Claim theorems -/

/-- C1: Recovery(info) is evaluated in a fixed order: if not enabled it fails
with the configuration error and the state (hence curRecoveryCnt) is unchanged;
if info is nil or its wrapped failure is nil it fails with the invalid-input
error unchanged; if curRecoveryCnt has reached maxRecoveryCnt it fails with the
budget error unchanged; otherwise curRecoveryCnt is incremented by exactly one,
the handler chain is scanned in registration order, the first handler whose
classify accepts the failure has its recover outcome returned verbatim (the
increment kept whatever that outcome is), and with no matching handler the call
fails with the unclassified error. -/
theorem C1_recovery_evaluation_order (m : RecoveryHandler) (info : Option RecoveryInfo) :
    (m.enable = false → m.Recovery info = (some Err.notEnabled, m)) ∧
    (m.enable = true → info = none → m.Recovery info = (some Err.invalidInfo, m)) ∧
    (∀ i, m.enable = true → info = some i → i.mppErr = none →
       m.Recovery info = (some Err.invalidInfo, m)) ∧
    (∀ i e, m.enable = true → info = some i → i.mppErr = some e →
       m.maxRecoveryCnt ≤ m.curRecoveryCnt →
       m.Recovery info = (some (Err.exceedsMax m.curRecoveryCnt m.maxRecoveryCnt), m)) ∧
    (∀ i e, m.enable = true → info = some i → i.mppErr = some e →
       m.curRecoveryCnt < m.maxRecoveryCnt →
       (m.Recovery info).2 = { m with curRecoveryCnt := m.curRecoveryCnt + 1 } ∧
       (∀ pre h post, m.handlers = pre ++ h :: post →
          (∀ h2 ∈ pre, h2.chooseHandlerImpl e = false) →
          h.chooseHandlerImpl e = true →
          (m.Recovery info).1 = h.doRecovery i) ∧
       ((∀ h ∈ m.handlers, h.chooseHandlerImpl e = false) →
          (m.Recovery info).1 = some Err.noHandler)) := by
  refine ⟨fun he => Recovery_not_enabled m info he,
          fun he hi => by rw [hi]; exact Recovery_nil_info m he,
          fun i he hi hme => by rw [hi]; exact Recovery_nil_err m i he hme,
          fun i e he hi hme hb => by rw [hi]; exact Recovery_budget m i e he hme hb,
          fun i e he hi hme hcur => ?_⟩
  subst hi
  rw [Recovery_step m i e he hme hcur]
  refine ⟨rfl, ?_, ?_⟩
  · intro pre h post hh hpre hch
    rw [hh, find?_first _ pre h post hpre hch]
  · intro hnone
    rw [List.find?_eq_none.mpr (fun x hx => by simp [hnone x hx])]

/-- Witness for C1 at a concrete disabled orchestrator. -/
theorem C1_recovery_evaluation_order_witness :
    demoDisabled.Recovery none = (some Err.notEnabled, demoDisabled) :=
  (C1_recovery_evaluation_order demoDisabled none).1 rfl

/-- C2: curRecoveryCnt never exceeds maxRecoveryCnt in any reachable state;
and with maxRecoveryCnt 3 and an enabled orchestrator, three consecutive
Recovery calls with a non-nil unclassifiable failure each return the
unclassified error with RecoveryCnt 1, 2, 3, and a fourth returns the budget
error with RecoveryCnt still 3. -/
theorem C2_budget_invariant_and_scenario :
    (∀ m : RecoveryHandler, Reachable m → m.curRecoveryCnt ≤ m.maxRecoveryCnt) ∧
    (scenB0.Recovery scenBinfo).1 = some Err.noHandler ∧ scenB1.RecoveryCnt = 1 ∧
    (scenB1.Recovery scenBinfo).1 = some Err.noHandler ∧ scenB2.RecoveryCnt = 2 ∧
    (scenB2.Recovery scenBinfo).1 = some Err.noHandler ∧ scenB3.RecoveryCnt = 3 ∧
    (scenB3.Recovery scenBinfo).1 = some (Err.exceedsMax 3 3) ∧
    scenB4.RecoveryCnt = 3 := by
  refine ⟨?_, by decide, by decide, by decide, by decide, by decide, by decide,
    by decide, by decide⟩
  intro m hm
  induction hm with
  | init ua cap en fetch => exact Nat.zero_le 3
  | hold chk _ ih => exact ih
  | pop _ ih => rw [PopFrontChk_cnt, PopFrontChk_max]; exact ih
  | reset _ ih => exact ih
  | recover info _ ih =>
    rcases Recovery_state _ info with h | ⟨hlt, h⟩
    · rw [h]; exact ih
    · rw [h]; simpa using hlt

/-- Witness for C2: the invariant applied to a concrete reachable state. -/
theorem C2_budget_invariant_witness :
    scenB1.curRecoveryCnt ≤ scenB1.maxRecoveryCnt :=
  C2_budget_invariant_and_scenario.1 scenB1
    (Reachable.recover scenBinfo (Reachable.init false 100 true scenBfetch))

/-- C3: cannotHold is a sticky one-way latch: an insert sets it exactly when
the cumulative row count reaches capacity (otherwise it keeps its value), a
successful pop sets it unconditionally, a pop that returns none changes
nothing, once true it stays true under insert, pop and Recovery, and reset is
the only operation that clears it. -/
theorem C3_cannot_hold_latch (m : RecoveryHandler) (chk : Chunk)
    (info : Option RecoveryInfo) :
    ((m.HoldResult chk).holder.cannotHold =
       (m.holder.cannotHold ||
        decide (m.holder.capacity ≤ m.holder.curRows + chk.numRows))) ∧
    (∀ c m2, m.PopFrontChk = (some c, m2) → m2.holder.cannotHold = true) ∧
    ((m.PopFrontChk).1 = none → (m.PopFrontChk).2 = m) ∧
    (m.holder.cannotHold = true →
       (m.HoldResult chk).holder.cannotHold = true ∧
       (m.PopFrontChk).2.holder.cannotHold = true ∧
       ((m.Recovery info).2).holder.cannotHold = true) ∧
    (m.ResetHolder.holder.cannotHold = false) := by
  refine ⟨?_, ?_, ?_, ?_, rfl⟩
  · show (if m.holder.curRows + chk.numRows ≥ m.holder.capacity then true
          else m.holder.cannotHold) = _
    by_cases h : m.holder.capacity ≤ m.holder.curRows + chk.numRows <;> simp [h]
  · intro c m2 h
    obtain ⟨-, rest, -, hm2⟩ := PopFrontChk_some h
    rw [hm2]
  · intro h
    rcases PopFrontChk_state m with h2 | ⟨c, rest, he, hc, h2⟩
    · exact h2
    · rw [PopFrontChk_cons m c rest he hc] at h
      simp at h
  · intro ht
    refine ⟨?_, ?_, ?_⟩
    · show (if m.holder.curRows + chk.numRows ≥ m.holder.capacity then true
            else m.holder.cannotHold) = true
      rw [ht]
      simp
    · rcases PopFrontChk_state m with h2 | ⟨c, rest, he, hc, h2⟩
      · rw [h2]; exact ht
      · rw [h2]
    · rw [Recovery_holder]; exact ht

/-- Witness for C3: popping the single held chunk of a concrete state latches
cannotHold. -/
theorem C3_cannot_hold_latch_witness :
    demoE2.holder.cannotHold = true :=
  (C3_cannot_hold_latch demoE { numRows := 2, memoryUsage := 8 } none).2.1
    { numRows := 2, memoryUsage := 8 } demoE2 rfl

/-- C4: PopFrontChk returns none exactly when the orchestrator is disabled or
the FIFO is empty, and then the state is unchanged; otherwise it removes and
returns the head of the FIFO (inserts append at the tail, so pops follow
insertion order), releases the tracked memory of that batch and sets
cannotHold unconditionally. -/
theorem C4_pop_front_spec (m : RecoveryHandler) (cs : List Chunk) :
    ((m.PopFrontChk).1 = none ↔ (m.enable = false ∨ m.holder.chks = [])) ∧
    ((m.PopFrontChk).1 = none → (m.PopFrontChk).2 = m) ∧
    (∀ chk rest, m.enable = true → m.holder.chks = chk :: rest →
       m.PopFrontChk = (some chk,
         { m with holder :=
           { m.holder with
             chks := rest
             memTracker := m.holder.memTracker.consume (-chk.memoryUsage)
             cannotHold := true } })) ∧
    ((m.holdAll cs).holder.chks = m.holder.chks ++ cs) := by
  refine ⟨⟨?_, ?_⟩, ?_, PopFrontChk_cons m, holdAll_chks cs m⟩
  · intro h
    by_cases he : m.enable = true
    · cases hc : m.holder.chks with
      | nil => exact Or.inr rfl
      | cons a rest =>
        rw [PopFrontChk_cons m a rest he hc] at h
        simp at h
    · exact Or.inl (by simpa using he)
  · intro h
    rw [PopFrontChk_disabled_or_empty m h]
  · intro h
    rcases PopFrontChk_state m with h2 | ⟨c, rest, he, hc, h2⟩
    · exact h2
    · rw [PopFrontChk_cons m c rest he hc] at h
      simp at h

/-- Witness for C4: popping a concrete one-element state yields the held chunk
and the latched successor state. -/
theorem C4_pop_front_spec_witness :
    demoE.PopFrontChk = (some { numRows := 2, memoryUsage := 8 }, demoE2) :=
  (C4_pop_front_spec demoE []).2.2.1 { numRows := 2, memoryUsage := 8 } [] rfl rfl

/-- C5: the memory-limit classify returns true iff the failure text contains
the substring defined by memLimitErrPattern and useAutoScaler is true; a
Recovery call (enabled, within budget) whose failure text contains the pattern
is routed to the memory-limit handler and its outcome returned when
useAutoScaler is true, while the identical failure with useAutoScaler false
yields the unclassified error. -/
theorem C5_mem_limit_classify (ua : Bool) (fetch : Int → Option GoErr)
    (e : GoErr) (n : Int) (m : RecoveryHandler) :
    ((newMemLimitHandlerImpl ua fetch).chooseHandlerImpl e = true ↔
       ((∃ l r, e.toList = l ++ memLimitErrPattern.toList ++ r) ∧ ua = true)) ∧
    (m.enable = true → m.curRecoveryCnt < m.maxRecoveryCnt →
       m.handlers = [newMemLimitHandlerImpl true fetch] →
       strContains e memLimitErrPattern = true →
       (m.Recovery (some { mppErr := some e, nodeCnt := n })).1 =
         Option.map Err.topoErr (fetch n)) ∧
    (m.enable = true → m.curRecoveryCnt < m.maxRecoveryCnt →
       m.handlers = [newMemLimitHandlerImpl false fetch] →
       (m.Recovery (some { mppErr := some e, nodeCnt := n })).1 =
         some Err.noHandler) := by
  have hch : ∀ b : Bool, (newMemLimitHandlerImpl b fetch).chooseHandlerImpl e =
      (strContains e memLimitErrPattern && b) := by
    intro b
    show memLimitChoose b e = _
    unfold memLimitChoose
    cases strContains e memLimitErrPattern && b <;> simp
  refine ⟨?_, ?_, ?_⟩
  · rw [hch, Bool.and_eq_true, strContains_iff]
  · intro he hcur hh hc
    rw [Recovery_step m { mppErr := some e, nodeCnt := n } e he rfl hcur, hh]
    have hx : (newMemLimitHandlerImpl true fetch).chooseHandlerImpl e = true := by
      rw [hch]; simp [hc]
    have hfind : List.find? (fun h => h.chooseHandlerImpl e)
        [newMemLimitHandlerImpl true fetch] =
          some (newMemLimitHandlerImpl true fetch) :=
      List.find?_cons_of_pos _ hx
    rw [hfind]
    rfl
  · intro he hcur hh
    rw [Recovery_step m { mppErr := some e, nodeCnt := n } e he rfl hcur, hh]
    have hx : (newMemLimitHandlerImpl false fetch).chooseHandlerImpl e = false := by
      rw [hch]; simp
    have hfind : List.find? (fun h => h.chooseHandlerImpl e)
        [newMemLimitHandlerImpl false fetch] = none :=
      List.find?_eq_none.mpr (fun x hx2 => by
        rw [List.mem_singleton] at hx2
        subst hx2
        simp [hx])
    rw [hfind]

/-- Witness for C5: a Memory limit failure routed through a concrete enabled
auto-scaler orchestrator. -/
theorem C5_mem_limit_classify_witness :
    (demoM.Recovery
        (some { mppErr := some "tiflash: Memory limit exceeded", nodeCnt := 2 })).1 =
      Option.map Err.topoErr (scenBfetch 2) :=
  (C5_mem_limit_classify true scenBfetch "tiflash: Memory limit exceeded" 2 demoM).2.1
    rfl (by decide) rfl (by decide)

/-- C6: from a fresh or freshly reset holder, a sequence of HoldResult calls
makes NumHoldRows the sum of inserted row counts and NumHoldChk the number of
inserted batches; a single insert appends unconditionally, charges the memory
tracker by the batch footprint, and latches cannotHold exactly when the
cumulative row count reaches capacity. -/
theorem C6_hold_result_accumulates (m : RecoveryHandler) (cs : List Chunk)
    (chk : Chunk) :
    (m.holder.curRows = 0 → m.holder.chks = [] →
       (m.holdAll cs).NumHoldRows = (cs.map Chunk.numRows).sum ∧
       (m.holdAll cs).NumHoldChk = cs.length) ∧
    ((m.HoldResult chk).holder =
       { m.holder with
         chks := m.holder.chks ++ [chk]
         curRows := m.holder.curRows + chk.numRows
         cannotHold :=
           if m.holder.capacity ≤ m.holder.curRows + chk.numRows then true
           else m.holder.cannotHold
         memTracker := m.holder.memTracker.consume chk.memoryUsage }) := by
  refine ⟨?_, rfl⟩
  intro h0 hnil
  constructor
  · show (m.holdAll cs).holder.curRows = _
    rw [holdAll_curRows cs m, h0, Nat.zero_add]
  · show (m.holdAll cs).holder.chks.length = _
    rw [holdAll_chks cs m, hnil, List.nil_append]

/-- Witness for C6: two inserts into a fresh capacity-10 holder. -/
theorem C6_hold_result_accumulates_witness :
    (demoFresh.holdAll
        [{ numRows := 2, memoryUsage := 1 }, { numRows := 3, memoryUsage := 2 }]).NumHoldRows = 5 ∧
    (demoFresh.holdAll
        [{ numRows := 2, memoryUsage := 1 }, { numRows := 3, memoryUsage := 2 }]).NumHoldChk = 2 := by
  have h := (C6_hold_result_accumulates demoFresh
      [{ numRows := 2, memoryUsage := 1 }, { numRows := 3, memoryUsage := 2 }]
      { numRows := 0, memoryUsage := 0 }).1 rfl rfl
  exact ⟨h.1.trans (by decide), h.2.trans (by decide)⟩

/-- C7: after ResetHolder, CanHoldResult is true whenever capacity is
positive, NumHoldRows and NumHoldChk are zero, the memory tracker is detached,
and enable, capacity and maxRecoveryCnt are unchanged. -/
theorem C7_reset_holder_spec (m : RecoveryHandler) :
    (0 < m.holder.capacity → m.ResetHolder.CanHoldResult = true) ∧
    m.ResetHolder.NumHoldRows = 0 ∧
    m.ResetHolder.NumHoldChk = 0 ∧
    m.ResetHolder.holder.memTracker.detached = true ∧
    m.ResetHolder.enable = m.enable ∧
    m.ResetHolder.holder.capacity = m.holder.capacity ∧
    m.ResetHolder.maxRecoveryCnt = m.maxRecoveryCnt := by
  refine ⟨?_, rfl, rfl, rfl, rfl, rfl, rfl⟩
  intro h
  simp [RecoveryHandler.ResetHolder, RecoveryHandler.CanHoldResult,
    MppResultHolder.reset, h]

/-- Witness for C7 at a concrete state with positive capacity. -/
theorem C7_reset_holder_spec_witness :
    demoE.ResetHolder.CanHoldResult = true :=
  (C7_reset_holder_spec demoE).1 (by decide)

/-- C8 counterexample: the claim says the maximum retry count is settable at
construction time; but constructions differing in every recognized argument
all produce maxRecoveryCnt = 3, so no construction argument sets it. -/
theorem C8_max_recovery_counterexample :
    (NewRecoveryHandler true 100 true scenBfetch).maxRecoveryCnt = 3 ∧
    (NewRecoveryHandler false 0 false scenBfetch).maxRecoveryCnt = 3 :=
  ⟨rfl, rfl⟩

/-- C8 amended: construction recognizes no maxRecoveryCount option; the
constructor initializes the maximum retry count to the constant 3 regardless
of its arguments. -/
theorem C8_max_recovery_fixed (ua : Bool) (cap : Nat) (en : Bool)
    (fetch : Int → Option GoErr) :
    (NewRecoveryHandler ua cap en fetch).maxRecoveryCnt = 3 :=
  rfl

/-- C9: between resets the held row count is monotonically non-decreasing:
an insert adds exactly the inserted row count, a pop leaves NumHoldRows
unchanged while removing the batch from the FIFO and releasing its tracked
memory, and Recovery does not touch it. -/
theorem C9_row_count_monotone (m : RecoveryHandler) (chk : Chunk)
    (info : Option RecoveryInfo) :
    ((m.HoldResult chk).NumHoldRows = m.NumHoldRows + chk.numRows) ∧
    ((m.PopFrontChk).2.NumHoldRows = m.NumHoldRows) ∧
    (∀ c m2, m.PopFrontChk = (some c, m2) →
       m2.holder.chks.length + 1 = m.holder.chks.length ∧
       m2.holder.memTracker = m.holder.memTracker.consume (-c.memoryUsage)) ∧
    ((m.Recovery info).2.NumHoldRows = m.NumHoldRows) ∧
    (m.NumHoldRows ≤ (m.HoldResult chk).NumHoldRows) ∧
    (m.NumHoldRows ≤ (m.PopFrontChk).2.NumHoldRows) := by
  have hpop : (m.PopFrontChk).2.NumHoldRows = m.NumHoldRows := PopFrontChk_curRows m
  refine ⟨rfl, hpop, ?_, ?_, Nat.le_add_right _ _, le_of_eq hpop.symm⟩
  · intro c m2 h
    obtain ⟨-, rest, hc, hm2⟩ := PopFrontChk_some h
    rw [hm2]
    exact ⟨by simp [hc], rfl⟩
  · show (m.Recovery info).2.holder.curRows = m.holder.curRows
    rw [Recovery_holder]

/-- Witness for C9: the concrete pop of demoE shortens the FIFO by one and
releases 8 bytes without touching the row count. -/
theorem C9_row_count_monotone_witness :
    demoE2.holder.chks.length + 1 = demoE.holder.chks.length ∧
    demoE2.holder.memTracker =
      demoE.holder.memTracker.consume (-(8 : Int)) :=
  (C9_row_count_monotone demoE { numRows := 1, memoryUsage := 1 } none).2.2.1
    { numRows := 2, memoryUsage := 8 } demoE2 rfl

/-- C10: ResetHolder never restores the retry budget: it leaves curRecoveryCnt
(and maxRecoveryCnt and enable) unchanged, and once curRecoveryCnt has reached
maxRecoveryCnt, a Recovery call after any number of ResetHolder calls still
fails with the budget-exceeded error and an unchanged state. -/
theorem C10_reset_preserves_budget (m : RecoveryHandler) (k : Nat)
    (e : GoErr) (n : Int) :
    (m.ResetHolder.curRecoveryCnt = m.curRecoveryCnt ∧
     m.ResetHolder.maxRecoveryCnt = m.maxRecoveryCnt ∧
     m.ResetHolder.enable = m.enable) ∧
    (m.enable = true → m.maxRecoveryCnt ≤ m.curRecoveryCnt →
       ((RecoveryHandler.ResetHolder)^[k] m).Recovery
           (some { mppErr := some e, nodeCnt := n }) =
         (some (Err.exceedsMax m.curRecoveryCnt m.maxRecoveryCnt),
          (RecoveryHandler.ResetHolder)^[k] m)) := by
  refine ⟨⟨rfl, rfl, rfl⟩, ?_⟩
  intro he hb
  have h := Recovery_budget ((RecoveryHandler.ResetHolder)^[k] m)
      { mppErr := some e, nodeCnt := n } e
      (by rw [iterate_reset_enable]; exact he) rfl
      (by rw [iterate_reset_cnt, iterate_reset_max]; exact hb)
  rw [h, iterate_reset_cnt, iterate_reset_max]

/-- Witness for C10: two resets between budget exhaustion and the next
Recovery call do not restore the budget. -/
theorem C10_reset_preserves_budget_witness :
    ((RecoveryHandler.ResetHolder)^[2] demoX).Recovery
        (some { mppErr := some "boom", nodeCnt := 0 }) =
      (some (Err.exceedsMax 3 3), (RecoveryHandler.ResetHolder)^[2] demoX) :=
  (C10_reset_preserves_budget demoX 2 "boom" 0).2 rfl (by decide)

end MppErr
